import Mathlib

/-!
Verification of the antbee logistic-regression classifier.

The Rust sources (src/antbee/model.rs, src/antbee/dataset.rs, src/main.rs)
are shallowly embedded here: `f32` is modelled by the reals, `Array1<f32>`
by `List ℝ`, the image raster produced by the external decoder/resizer by a
function `Fin 28 → Fin 28 → Pixel`, and filesystem state for the dataset
builder by an explicit `FS` value.  Stateful Rust methods become pure
functions returning the updated value.
-/

namespace AntBee

/-- Modelled from the spec: src/antbee/kind.rs is not among the sources.
The spec defines the label as a two-valued enumeration (upstream names
Ant/Bee) used both as training target and prediction output and compared
by variant (model.rs matches on exactly these two variants and compares
predictions with equality). -/
inductive Kind where
  | Ant
  | Bee
deriving DecidableEq, Repr

/-- One 8-bit RGB pixel of the decoded, resized raster (dataset.rs uses
`to_rgb8`, so each channel is a `u8`). -/
structure Pixel where
  r : Fin 256
  g : Fin 256
  b : Fin 256

/-- A 28×28 raster as produced by `resize(&rgb, 28, 28, Lanczos3)`:
row index then column index. -/
def Img : Type := Fin 28 → Fin 28 → Pixel

/-- The row-major pixel iteration order of `resized.pixels()`:
pixel `i` lives at row `i / 28`, column `i % 28`. -/
def pixelList (img : Img) : List Pixel :=
  List.ofFn (fun i : Fin (28 * 28) =>
    img ⟨i.val / 28, by omega⟩ ⟨i.val % 28, by omega⟩)

/-- `Dataset::jpg_to_chw` (dataset.rs lines 32–49) after the external
decode/resize step: push for every pixel the red channel divided by 255, then
every green, then every blue. -/
noncomputable def jpg_to_chw (img : Img) : List ℝ :=
  (pixelList img).map (fun p => (p.r.val : ℝ) / 255)
    ++ (pixelList img).map (fun p => (p.g.val : ℝ) / 255)
    ++ (pixelList img).map (fun p => (p.b.val : ℝ) / 255)

/-- `Data` (dataset.rs lines 11–14): a labelled example. -/
structure Data where
  kind : Kind
  data : List ℝ

/-- `Data::get_kind`. -/
def Data.get_kind (d : Data) : Kind := d.kind

/-- `Data::get_data`. -/
def Data.get_data (d : Data) : List ℝ := d.data

/-- `Dataset` (dataset.rs lines 27–29). -/
structure Dataset where
  values : List Data

/-- `Dataset::get_values`. -/
def Dataset.get_values (ds : Dataset) : List Data := ds.values

/-- `Dataset::len`. -/
def Dataset.len (ds : Dataset) : Nat := ds.values.length

/-- `Model` (model.rs lines 12–19): weight vector and bias. -/
structure Model where
  w : List ℝ
  b : ℝ

namespace Model

/-- `Model::LEARNING_RATE` (model.rs line 24). -/
noncomputable def LEARNING_RATE : ℝ := 0.001

/-- `Model::INPUT_DIM` (model.rs line 28). -/
def INPUT_DIM : Nat := 2352

/-- `Model::sigmoid` (model.rs lines 56–58): `1 / (1 + exp (-z))`. -/
noncomputable def sigmoid (z : ℝ) : ℝ := 1 / (1 + Real.exp (-z))

/-- The `ndarray` dot product `self.w.dot(x)` on equal-length vectors:
sum of pairwise products. -/
noncomputable def dotList (a b : List ℝ) : ℝ :=
  (List.zipWith (fun u v => u * v) a b).sum

/-- `Model::predict_prob` (model.rs lines 69–72): `sigmoid (w·x + b)`. -/
noncomputable def predict_prob (m : Model) (x : List ℝ) : ℝ :=
  sigmoid (dotList m.w x + m.b)

/-- `Model::predict` (model.rs lines 84–90): `Bee` when the probability
is strictly above one half, `Ant` otherwise. -/
noncomputable def predict (m : Model) (x : List ℝ) : Kind :=
  if m.predict_prob x > 0.5 then Kind.Bee else Kind.Ant

/-- The `EPS` constant of `Model::cross_entropy_loss` (model.rs line 104). -/
noncomputable def EPS : ℝ := 1e-7

/-- The Rust method `f32::clamp(lo, hi)`: pull the value into `[lo, hi]`. -/
noncomputable def clamp (x lo hi : ℝ) : ℝ :=
  if x < lo then lo else if x > hi then hi else x

/-- `Model::cross_entropy_loss` (model.rs lines 103–109). -/
noncomputable def cross_entropy_loss (y_pred : ℝ) (y_true : Kind) : ℝ :=
  match y_true with
  | Kind.Ant => -Real.log (1 - clamp y_pred EPS (1 - EPS))
  | Kind.Bee => -Real.log (clamp y_pred EPS (1 - EPS))

/-- `Model::backward` (model.rs lines 124–140): gradient descent step.
`scaled_add(-lr, dw)` is `w := w - lr * dw` elementwise. -/
noncomputable def backward (m : Model) (prob : ℝ) (d : Data) : Model :=
  let dz := match d.get_kind with
    | Kind.Ant => prob
    | Kind.Bee => prob - 1
  let dw := d.get_data.map (fun xi => xi * dz)
  { w := List.zipWith (fun wi dwi => wi - LEARNING_RATE * dwi) m.w dw
    b := m.b - LEARNING_RATE * dz }

/-- `Model::train_step` (model.rs lines 152–158): forward pass, loss,
backward pass; returns the updated model together with the loss. -/
noncomputable def train_step (m : Model) (d : Data) : Model × ℝ :=
  let prob := m.predict_prob d.get_data
  let loss := cross_entropy_loss prob d.get_kind
  ((m.backward prob d), loss)

/-- `Model::evaluate` (model.rs lines 169–179): count matching
predictions, divide by the dataset length. -/
noncomputable def evaluate (m : Model) (ds : Dataset) : ℝ :=
  ((ds.get_values.countP
      (fun d => decide (m.predict d.get_data = d.get_kind)) : ℕ) : ℝ)
    / (ds.len : ℝ)

end Model

/-! ### Dataset construction (dataset.rs lines 51–88)

The filesystem is modelled explicitly.  A directory can be missing, exist
but not be a directory, exist as a directory that cannot be read, or be
readable with a list of decodable images.  `debug_assert!` is active only
when the build has `debug_assertions`, so `from_dataset_path` takes that
flag as a parameter; the one-time shuffle is a caller-supplied
permutation standing for `values.shuffle(&mut rng())`. -/

/-- State of one directory as seen by `Path::exists`/`Path::is_dir` and
`std::fs::read_dir`. -/
inductive DirState where
  | missing
  | notDir
  | unreadable (imgs : List Img)
  | readable (imgs : List Img)

/-- `path.exists() && path.is_dir()` — true for an existing directory even
when it cannot be read (`assert_is_valid_dir`, dataset.rs lines 51–55,
checks exactly these two predicates). -/
def DirState.existsAndIsDir : DirState → Bool
  | .missing => false
  | .notDir => false
  | .unreadable _ => true
  | .readable _ => true

/-- `read_dir(path)`: `none` models the `Err` that `.unwrap()` turns into
a panic. -/
def DirState.readDir : DirState → Option (List Img)
  | .readable imgs => some imgs
  | _ => none

/-- The directory tree handed to `Dataset::from_dataset_path`: the root
and its `ants` and `bees` subdirectories. -/
structure FS where
  root : DirState
  ants : DirState
  bees : DirState

/-- Outcome of `Dataset::from_dataset_path`, recording in the failure
cases how many images had already been decoded when the run died. -/
inductive BuildOutcome where
  | assertionFailed (decoded : Nat)
  | unwrapPanicked (decoded : Nat)
  | built (values : List Data)

/-- `Dataset::from_dataset_path` (dataset.rs lines 57–88).  With
`debug_assertions` on, the root and both subdirectories are asserted to
exist and be directories before anything else; then `read_dir(ants)` is
unwrapped and every ant image decoded, then `read_dir(bees)` is unwrapped
and every bee image decoded, and the concatenation is shuffled. -/
noncomputable def from_dataset_path (debugAsserts : Bool)
    (shuffle : List Data → List Data) (fs : FS) : BuildOutcome :=
  if debugAsserts && !fs.root.existsAndIsDir then .assertionFailed 0
  else if debugAsserts && !fs.ants.existsAndIsDir then .assertionFailed 0
  else if debugAsserts && !fs.bees.existsAndIsDir then .assertionFailed 0
  else
    match fs.ants.readDir with
    | none => .unwrapPanicked 0
    | some ants =>
      match fs.bees.readDir with
      | none => .unwrapPanicked ants.length
      | some bees =>
        .built (shuffle
          (ants.map (fun i => Data.mk Kind.Ant (jpg_to_chw i))
            ++ bees.map (fun i => Data.mk Kind.Bee (jpg_to_chw i))))

/-! ### The training loop (main.rs lines 6–28) -/

/-- One line of the `println!` progress report in `train_model`. -/
structure Report where
  epoch : Nat
  avgLoss : ℝ
  accuracy : ℝ

/-- The body of the inner loop of `train_model`: thread the model through
`train_step` and accumulate `total_loss`. -/
noncomputable def epochStep (acc : Model × ℝ) (d : Data) : Model × ℝ :=
  ((acc.1.train_step d).1, acc.2 + (acc.1.train_step d).2)

/-- `train_model` (main.rs lines 6–28): 150 epochs, each folding
`train_step` over the dataset in stored order; on every epoch divisible
by 10 a report with the average loss and the current accuracy is
emitted. -/
noncomputable def train_model (m : Model) (ds : Dataset) : Model × List Report :=
  (List.range 150).foldl
    (fun acc epoch =>
      let er := ds.get_values.foldl epochStep (acc.1, 0)
      if epoch % 10 = 0 then
        (er.1, acc.2 ++ [⟨epoch, er.2 / (ds.len : ℝ), er.1.evaluate ds⟩])
      else
        (er.1, acc.2))
    (m, [])

/-! Reference descriptions of the loop, to compare `train_model`
against. -/

/-- One epoch of the inner loop started from loss accumulator 0. -/
noncomputable def runEpoch (m : Model) (ds : Dataset) : Model × ℝ :=
  ds.get_values.foldl epochStep (m, 0)

/-- The model after `n` sequential epochs. -/
noncomputable def epochsModel (m : Model) (ds : Dataset) : Nat → Model
  | 0 => m
  | n + 1 => (runEpoch (epochsModel m ds n) ds).1

/-- The report the loop prints at epoch `e`: average of the total loss of that epoch over the dataset size, and the accuracy of the post-epoch
model. -/
noncomputable def reportAt (m : Model) (ds : Dataset) (e : Nat) : Report :=
  ⟨e, (runEpoch (epochsModel m ds e) ds).2 / (ds.len : ℝ),
    (runEpoch (epochsModel m ds e) ds).1.evaluate ds⟩

/-- The reports of the first `n` epochs: one per epoch divisible by 10. -/
noncomputable def expectedReports (m : Model) (ds : Dataset) (n : Nat) : List Report :=
  ((List.range n).filter (fun e => decide (e % 10 = 0))).map (reportAt m ds)

/-- The per-example losses returned by `train_step` along one epoch. -/
noncomputable def lossSeq : Model → List Data → List ℝ
  | _, [] => []
  | m, d :: rest => (m.train_step d).2 :: lossSeq (m.train_step d).1 rest

/-- The model left after training once on each example in order. -/
noncomputable def modelAfter : Model → List Data → Model
  | m, [] => m
  | m, d :: rest => modelAfter (m.train_step d).1 rest

/-! ### State-passing forms, for the frame claim

`St` packages the mutable model with the borrowed dataset, mirroring what
`train_model(&mut Model, &Dataset)` can touch.  Each Rust method becomes
a function on `St`; a `&self` method performs no writes, so its
translation carries the state through. -/

/-- The state threaded through the training run: the classifier behind
the `&mut` borrow and the dataset behind the shared borrow. -/
structure St where
  model : Model
  dataset : Dataset

/-- `Model::predict` as a state transformer (a `&self` method: its body
contains no assignment). -/
noncomputable def predictS (st : St) (x : List ℝ) : Kind × St :=
  (st.model.predict x, st)

/-- `Model::evaluate` as a state transformer (a `&self` method reading a
`&Dataset`: no assignment anywhere in its body). -/
noncomputable def evaluateS (st : St) : ℝ × St :=
  (st.model.evaluate st.dataset, st)

/-- `Model::train_step` as a state transformer: the only writes in its
body (via `backward`) assign `self.w` and `self.b`. -/
noncomputable def train_stepS (st : St) (d : Data) : ℝ × St :=
  ((st.model.train_step d).2, ⟨(st.model.train_step d).1, st.dataset⟩)

/-- `train_model` in state-passing form: the full loop, calling
`train_stepS` on every example of every epoch and `evaluateS` on
reporting epochs. -/
noncomputable def train_modelS (st : St) : St :=
  (List.range 150).foldl
    (fun s epoch =>
      let s1 := s.dataset.get_values.foldl (fun s2 d => (train_stepS s2 d).2) s
      if epoch % 10 = 0 then (evaluateS s1).2 else s1)
    st

/-! ### Helper lemmas -/

lemma sigmoid_zero : Model.sigmoid 0 = 0.5 := by
  unfold Model.sigmoid
  rw [neg_zero, Real.exp_zero]
  norm_num

lemma dotList_replicate_zero (n : Nat) (x : List ℝ) :
    Model.dotList (List.replicate n (0 : ℝ)) x = 0 := by
  induction x generalizing n with
  | nil => cases n <;> simp [Model.dotList]
  | cons a t ih =>
    cases n with
    | zero => simp [Model.dotList]
    | succ k =>
      simpa [Model.dotList, List.replicate_succ] using ih k

lemma pixelList_length (img : Img) : (pixelList img).length = 784 := by
  unfold pixelList
  rw [List.length_ofFn]

lemma pixelList_get_rc (img : Img) (r c : Fin 28) :
    (pixelList img)[(28 * r.val + c.val : Nat)]? = some (img r c) := by
  have hr := r.isLt
  have hc := c.isLt
  have h : 28 * r.val + c.val < 28 * 28 := by omega
  unfold pixelList
  rw [List.getElem?_ofFn]
  simp only [List.ofFnNthVal, dif_pos h]
  congr 1
  congr 1
  · apply Fin.ext
    simp
    omega
  · apply Fin.ext
    simp
    omega

lemma channel_div_bounds (k : Fin 256) :
    0 ≤ (k.val : ℝ) / 255 ∧ (k.val : ℝ) / 255 ≤ 1 := by
  constructor
  · positivity
  · rw [div_le_one (by norm_num)]
    have h := k.isLt
    have : (k.val : ℝ) ≤ 255 := by exact_mod_cast Nat.le_of_lt_succ h
    linarith

/-! ### Claims -/

/-- C3: for every decoded raster, the feature vector has length 2352,
every element lies in [0, 1], and the layout is channel-major: entry
`28 r + c` is the red channel of pixel `(r, c)` divided by 255, entry
`784 + 28 r + c` the green one, entry `1568 + 28 r + c` the blue one. -/
theorem c3_jpg_to_chw_layout (img : Img) :
    (jpg_to_chw img).length = 2352 ∧
    (∀ v ∈ jpg_to_chw img, 0 ≤ v ∧ v ≤ 1) ∧
    ∀ r c : Fin 28,
      (jpg_to_chw img)[(28 * r.val + c.val : Nat)]?
          = some (((img r c).r.val : ℝ) / 255) ∧
      (jpg_to_chw img)[(784 + (28 * r.val + c.val) : Nat)]?
          = some (((img r c).g.val : ℝ) / 255) ∧
      (jpg_to_chw img)[(1568 + (28 * r.val + c.val) : Nat)]?
          = some (((img r c).b.val : ℝ) / 255) := by
  have hlenR : ((pixelList img).map (fun p => (p.r.val : ℝ) / 255)).length = 784 := by
    simp [pixelList_length]
  have hlenG : ((pixelList img).map (fun p => (p.g.val : ℝ) / 255)).length = 784 := by
    simp [pixelList_length]
  refine ⟨?_, ?_, ?_⟩
  · unfold jpg_to_chw
    rw [List.length_append, List.length_append, List.length_map, List.length_map,
      List.length_map, pixelList_length]
  · intro v hv
    unfold jpg_to_chw at hv
    simp only [List.mem_append, List.mem_map] at hv
    rcases hv with (⟨p, _, rfl⟩ | ⟨p, _, rfl⟩) | ⟨p, _, rfl⟩
    · exact channel_div_bounds _
    · exact channel_div_bounds _
    · exact channel_div_bounds _
  · intro r c
    have hr := r.isLt
    have hc := c.isLt
    refine ⟨?_, ?_, ?_⟩
    · unfold jpg_to_chw
      rw [List.getElem?_append_left (by rw [List.length_append, hlenR, hlenG]; omega),
        List.getElem?_append_left (by rw [hlenR]; omega),
        List.getElem?_map, pixelList_get_rc]
      rfl
    · unfold jpg_to_chw
      rw [List.getElem?_append_left (by rw [List.length_append, hlenR, hlenG]; omega),
        List.getElem?_append_right (by rw [hlenR]; omega), hlenR]
      have h2 : 784 + (28 * r.val + c.val) - 784 = 28 * r.val + c.val := by omega
      rw [h2, List.getElem?_map, pixelList_get_rc]
      rfl
    · unfold jpg_to_chw
      rw [List.getElem?_append_right (by rw [List.length_append, hlenR, hlenG]; omega)]
      rw [List.length_append, hlenR, hlenG]
      have h3 : 1568 + (28 * r.val + c.val) - (784 + 784) = 28 * r.val + c.val := by omega
      rw [h3, List.getElem?_map, pixelList_get_rc]
      rfl

/-- C2: `cross_entropy_loss` first clamps the prediction into
`[EPS, 1 - EPS]` with `EPS = 1e-7`, then returns `-ln (1 - clamped)` for
an Ant label and `-ln clamped` for a Bee label. -/
theorem c2_cross_entropy_clamps_then_logs (p : ℝ) :
    Model.cross_entropy_loss p Kind.Ant
        = -Real.log (1 - Model.clamp p Model.EPS (1 - Model.EPS)) ∧
    Model.cross_entropy_loss p Kind.Bee
        = -Real.log (Model.clamp p Model.EPS (1 - Model.EPS)) ∧
    Model.EPS = 1e-7 ∧
    Model.EPS ≤ Model.clamp p Model.EPS (1 - Model.EPS) ∧
    Model.clamp p Model.EPS (1 - Model.EPS) ≤ 1 - Model.EPS := by
  refine ⟨rfl, rfl, rfl, ?_, ?_⟩
  · unfold Model.clamp Model.EPS
    split_ifs with h1 h2
    · norm_num
    · norm_num
    · norm_num at h1
      linarith
  · unfold Model.clamp Model.EPS
    split_ifs with h1 h2
    · norm_num
    · norm_num
    · norm_num at h2
      linarith

/-- C6: `predict` answers Bee exactly when the forward probability is
strictly greater than one half, so the boundary probability one half is
classified Ant. -/
theorem c6_predict_strict_threshold (m : Model) (x : List ℝ) :
    (m.predict x = Kind.Bee ↔ m.predict_prob x > 0.5) ∧
    (m.predict_prob x = 0.5 → m.predict x = Kind.Ant) := by
  constructor
  · unfold Model.predict
    split_ifs with h <;> simp [h]
  · intro h
    unfold Model.predict
    rw [h]
    simp

/-- C6 witness: on the all-zero model and the empty feature list the
forward probability is exactly one half and the prediction is Ant. -/
theorem c6_predict_strict_threshold_witness :
    (Model.mk (List.replicate 2352 (0 : ℝ)) 0).predict [] = Kind.Ant :=
  (c6_predict_strict_threshold (Model.mk (List.replicate 2352 (0 : ℝ)) 0) []).2
    (by
      unfold Model.predict_prob
      rw [dotList_replicate_zero, add_zero, sigmoid_zero])

/-- C8: a model with all-zero weights and zero bias has forward
probability exactly one half on every input, and therefore predicts Ant
on every input (the decision rule is strict greater-than). -/
theorem c8_zero_model_predicts_ant (n : Nat) (x : List ℝ) :
    (Model.mk (List.replicate n (0 : ℝ)) 0).predict_prob x = 0.5 ∧
    (Model.mk (List.replicate n (0 : ℝ)) 0).predict x = Kind.Ant := by
  have hp : (Model.mk (List.replicate n (0 : ℝ)) 0).predict_prob x = 0.5 := by
    unfold Model.predict_prob
    rw [dotList_replicate_zero, add_zero, sigmoid_zero]
  refine ⟨hp, ?_⟩
  unfold Model.predict
  rw [hp]
  simp

/-- C1: one `train_step` computes the forward probability `p`, returns
the cross-entropy loss of `p` against the label computed before any
update, and updates the weights to `w - 0.001 * (x * dz)` elementwise
and the bias to `b - 0.001 * dz`, where `dz = p` for Ant and `p - 1`
for Bee. -/
theorem c1_train_step_gradient_update (m : Model) (d : Data) :
    (m.train_step d).2
        = Model.cross_entropy_loss (m.predict_prob d.get_data) d.get_kind ∧
    (m.train_step d).1.w
        = List.zipWith
            (fun wi xi => wi - 0.001 * (xi *
              (match d.get_kind with
                | Kind.Ant => m.predict_prob d.get_data
                | Kind.Bee => m.predict_prob d.get_data - 1)))
            m.w d.get_data ∧
    (m.train_step d).1.b
        = m.b - 0.001 *
            (match d.get_kind with
              | Kind.Ant => m.predict_prob d.get_data
              | Kind.Bee => m.predict_prob d.get_data - 1) := by
  obtain ⟨k, x⟩ := d
  cases k <;>
    simp [Model.train_step, Model.backward, Data.get_kind, Data.get_data,
      Model.LEARNING_RATE, List.zipWith_map_right]

/-- A concrete all-black 28×28 raster, used as input for concrete runs. -/
def img0 : Img := fun _ _ => ⟨0, 0, 0⟩

/-- C4 counterexample: `evaluate` is not guarded against the empty
dataset.  On the empty dataset it runs to completion and performs the
division `0 / 0` (which is NaN in the `f32` code and `0` under the real
division of this model) instead of failing with a configuration error or
being otherwise prevented from running. -/
theorem c4_counterexample_empty_division :
    (Model.mk (List.replicate 2352 (0 : ℝ)) 0).evaluate (Dataset.mk [])
      = (0 : ℝ) / (0 : ℝ) := by
  unfold Model.evaluate Dataset.get_values Dataset.len
  simp only [List.countP_nil, List.length_nil, Nat.cast_zero]

/-- C4 amended: `evaluate` performs no emptiness guard (on an empty
dataset it divides zero by zero, NaN in `f32`); on every non-empty
dataset it returns the number of matching predictions divided by the
dataset size, a value in [0, 1]. -/
theorem c4_evaluate_nonempty_accuracy (m : Model) (ds : Dataset)
    (h : ds.values ≠ []) :
    m.evaluate ds
        = ((ds.values.countP
            (fun d => decide (m.predict d.get_data = d.get_kind)) : ℕ) : ℝ)
          / (ds.values.length : ℝ) ∧
    0 ≤ m.evaluate ds ∧ m.evaluate ds ≤ 1 := by
  have hpos : 0 < ds.values.length := List.length_pos.mpr h
  have hposR : (0 : ℝ) < (ds.values.length : ℝ) := by exact_mod_cast hpos
  have hle : ds.values.countP
      (fun d => decide (m.predict d.get_data = d.get_kind)) ≤ ds.values.length := by
    apply List.countP_le_length
  refine ⟨rfl, ?_, ?_⟩
  · unfold Model.evaluate
    positivity
  · unfold Model.evaluate Dataset.get_values Dataset.len
    rw [div_le_one hposR]
    exact_mod_cast hle

/-- C4 witness: on a one-example dataset the accuracy is between 0
and 1. -/
theorem c4_evaluate_nonempty_accuracy_witness :
    0 ≤ (Model.mk ([] : List ℝ) 0).evaluate (Dataset.mk [Data.mk Kind.Ant []]) ∧
    (Model.mk ([] : List ℝ) 0).evaluate (Dataset.mk [Data.mk Kind.Ant []]) ≤ 1 :=
  ⟨(c4_evaluate_nonempty_accuracy (Model.mk ([] : List ℝ) 0)
      (Dataset.mk [Data.mk Kind.Ant []]) (by simp)).2.1,
    (c4_evaluate_nonempty_accuracy (Model.mk ([] : List ℝ) 0)
      (Dataset.mk [Data.mk Kind.Ant []]) (by simp)).2.2⟩

/-- C5 counterexample: an existing but unreadable bees directory passes
both debug assertions (they test only `exists` and `is_dir`), so the
build dies at the bees `read_dir().unwrap()` only after the single ant
image has already been decoded: the directory check does not happen
before all decoding begins, and the failure is an unwrap panic, not a
pre-decode configuration error. -/
theorem c5_counterexample_decode_before_check :
    from_dataset_path true id
        (FS.mk (DirState.readable []) (DirState.readable [img0])
          (DirState.unreadable [img0]))
      = BuildOutcome.unwrapPanicked 1 := by
  rfl

/-- C5 amended: with debug assertions enabled, a missing or
not-a-directory root or label subdirectory makes construction fail via
an assertion before any image is decoded; an unreadable-but-existing
subdirectory is not caught by those assertions (and in release builds
the assertions are absent entirely), so the failure is a lazy unwrap
panic at `read_dir`, which for the bees directory happens only after all
ant images have been decoded. -/
theorem c5_debug_asserts_fail_fast (s : List Data → List Data) (fs : FS)
    (h : fs.root.existsAndIsDir = false ∨ fs.ants.existsAndIsDir = false ∨
      fs.bees.existsAndIsDir = false) :
    from_dataset_path true s fs = BuildOutcome.assertionFailed 0 := by
  unfold from_dataset_path
  rcases h with h | h | h <;> simp [h]

/-- C5 witness: a missing ants directory trips the debug assertion with
zero images decoded. -/
theorem c5_debug_asserts_fail_fast_witness :
    from_dataset_path true id
        (FS.mk (DirState.readable []) DirState.missing (DirState.readable []))
      = BuildOutcome.assertionFailed 0 :=
  c5_debug_asserts_fail_fast id
    (FS.mk (DirState.readable []) DirState.missing (DirState.readable []))
    (Or.inr (Or.inl rfl))

/-- C7: whenever the ants directory yields the image list `ants` and the
bees directory yields `bees`, the built dataset has exactly
`ants.length + bees.length` examples, of which exactly `ants.length`
are labelled Ant and exactly `bees.length` are labelled Bee, for every
permutation used as the shuffle. -/
theorem c7_label_counts_preserved (s : List Data → List Data)
    (hs : ∀ l, (s l).Perm l) (fs : FS) (ants bees : List Img)
    (ha : fs.ants.readDir = some ants) (hb : fs.bees.readDir = some bees) :
    ∃ values,
      from_dataset_path false s fs = BuildOutcome.built values ∧
      values.length = ants.length + bees.length ∧
      values.countP (fun d => decide (d.get_kind = Kind.Ant)) = ants.length ∧
      values.countP (fun d => decide (d.get_kind = Kind.Bee)) = bees.length := by
  have hperm := hs
    (ants.map (fun i => Data.mk Kind.Ant (jpg_to_chw i))
      ++ bees.map (fun i => Data.mk Kind.Bee (jpg_to_chw i)))
  refine ⟨s (ants.map (fun i => Data.mk Kind.Ant (jpg_to_chw i))
      ++ bees.map (fun i => Data.mk Kind.Bee (jpg_to_chw i))), ?_, ?_, ?_, ?_⟩
  · unfold from_dataset_path
    simp [ha, hb]
  · rw [hperm.length_eq]
    simp
  · rw [hperm.countP_eq]
    simp [Data.get_kind, Function.comp_def]
  · rw [hperm.countP_eq]
    simp [Data.get_kind, Function.comp_def]

/-- C7 witness: one ant image and no bee image give a one-example
dataset with one Ant and zero Bees, under a reversing shuffle. -/
theorem c7_label_counts_preserved_witness :
    ∃ values,
      from_dataset_path false List.reverse
          (FS.mk (DirState.readable []) (DirState.readable [img0])
            (DirState.readable []))
        = BuildOutcome.built values ∧
      values.length = ([img0] : List Img).length + ([] : List Img).length ∧
      values.countP (fun d => decide (d.get_kind = Kind.Ant))
          = ([img0] : List Img).length ∧
      values.countP (fun d => decide (d.get_kind = Kind.Bee))
          = ([] : List Img).length :=
  c7_label_counts_preserved List.reverse (fun l => List.reverse_perm l)
    (FS.mk (DirState.readable []) (DirState.readable [img0])
      (DirState.readable []))
    [img0] [] rfl rfl

lemma foldl_epochStep (l : List Data) : ∀ (m : Model) (t : ℝ),
    l.foldl epochStep (m, t) = (modelAfter m l, t + (lossSeq m l).sum) := by
  induction l with
  | nil =>
    intro m t
    simp [modelAfter, lossSeq]
  | cons d rest ih =>
    intro m t
    rw [List.foldl_cons]
    show List.foldl epochStep
        ((m.train_step d).1, t + (m.train_step d).2) rest = _
    rw [ih]
    show (modelAfter (m.train_step d).1 rest, _) = _
    rw [show modelAfter m (d :: rest) = modelAfter (m.train_step d).1 rest from rfl,
      show lossSeq m (d :: rest)
        = (m.train_step d).2 :: lossSeq (m.train_step d).1 rest from rfl]
    rw [List.sum_cons, add_assoc]

lemma runEpoch_eq (m : Model) (ds : Dataset) :
    runEpoch m ds = (modelAfter m ds.get_values, (lossSeq m ds.get_values).sum) := by
  unfold runEpoch
  rw [foldl_epochStep, zero_add]

lemma train_model_foldl (m : Model) (ds : Dataset) : ∀ n : Nat,
    (List.range n).foldl
      (fun acc epoch =>
        let er := ds.get_values.foldl epochStep (acc.1, 0)
        if epoch % 10 = 0 then
          (er.1, acc.2 ++ [⟨epoch, er.2 / (ds.len : ℝ), er.1.evaluate ds⟩])
        else
          (er.1, acc.2))
      (m, ([] : List Report))
      = (epochsModel m ds n, expectedReports m ds n) := by
  intro n
  induction n with
  | zero => simp [epochsModel, expectedReports]
  | succ k ih =>
    rw [List.range_succ, List.foldl_append, ih, List.foldl_cons, List.foldl_nil]
    show (if k % 10 = 0 then _ else _) = _
    have hr : ds.get_values.foldl epochStep (epochsModel m ds k, 0)
        = runEpoch (epochsModel m ds k) ds := rfl
    have hm : epochsModel m ds (k + 1) = (runEpoch (epochsModel m ds k) ds).1 := rfl
    have hrep : expectedReports m ds (k + 1)
        = expectedReports m ds k
          ++ (if k % 10 = 0 then [reportAt m ds k] else []) := by
      unfold expectedReports
      rw [List.range_succ, List.filter_append, List.map_append]
      by_cases h : k % 10 = 0 <;> simp [h]
    by_cases h : k % 10 = 0
    · rw [if_pos h, hrep, if_pos h, hr, hm]
      rfl
    · rw [if_neg h, hrep, if_neg h, hr, hm]
      simp

/-- C9: `train_model` runs exactly 150 sequential epochs, each epoch
folding `train_step` over the dataset in its stored order (the model
after each epoch is `modelAfter`, the total loss of each epoch the sum of the
per-example losses `lossSeq`), and it reports exactly on the epochs
divisible by 10 — epoch 0 included — with average loss equal to that
loss sum of that epoch divided by the dataset size and accuracy obtained from
`evaluate`. -/
theorem c9_training_loop_structure (m : Model) (ds : Dataset) :
    train_model m ds = (epochsModel m ds 150, expectedReports m ds 150) ∧
    (∀ m0 : Model, runEpoch m0 ds
        = (modelAfter m0 ds.get_values, (lossSeq m0 ds.get_values).sum)) ∧
    (expectedReports m ds 150).map Report.epoch
        = (List.range 150).filter (fun e => decide (e % 10 = 0)) := by
  refine ⟨?_, ?_, ?_⟩
  · exact train_model_foldl m ds 150
  · intro m0
    exact runEpoch_eq m0 ds
  · unfold expectedReports
    rw [List.map_map]
    simp [reportAt, Function.comp_def]

lemma foldl_train_stepS_dataset (l : List Data) : ∀ s : St,
    (l.foldl (fun s2 d => (train_stepS s2 d).2) s).dataset = s.dataset := by
  induction l with
  | nil => intro s; rfl
  | cons d rest ih =>
    intro s
    rw [List.foldl_cons, ih]
    rfl

lemma foldl_epochS_dataset (l : List Nat) : ∀ s : St,
    ((l.foldl
        (fun s epoch =>
          let s1 := s.dataset.get_values.foldl (fun s2 d => (train_stepS s2 d).2) s
          if epoch % 10 = 0 then (evaluateS s1).2 else s1)
        s).dataset = s.dataset) := by
  induction l with
  | nil => intro s; rfl
  | cons e rest ih =>
    intro s
    rw [List.foldl_cons, ih]
    by_cases h : e % 10 = 0
    · rw [if_pos h]
      exact foldl_train_stepS_dataset _ s
    · rw [if_neg h]
      exact foldl_train_stepS_dataset _ s

/-- C10: only `train_step` changes the classifier, and the model holds
nothing but the weights and the bias: in the state-passing embedding,
`predict` and `evaluate` return the state untouched, one `train_step`
leaves the dataset component unchanged, and a whole 150-epoch training
run leaves the dataset component — the features and label of every example —
unchanged. -/
theorem c10_only_train_step_mutates (st : St) (x : List ℝ) (d : Data) :
    (predictS st x).2 = st ∧
    (evaluateS st).2 = st ∧
    (train_stepS st d).2.dataset = st.dataset ∧
    (train_modelS st).dataset = st.dataset := by
  refine ⟨rfl, rfl, rfl, ?_⟩
  unfold train_modelS
  exact foldl_epochS_dataset (List.range 150) st

end AntBee
